import Mathlib

/-! Verification of the SPIMEX trading-results ETL pipeline (async.py and
table_one.py): a paginated bulletin locator with a year cutoff, a spreadsheet
extractor, a pandas-style row normalizer, and a SQLAlchemy-style persister.
The Python code is embedded shallowly: dataframes are lists of rows of cells,
network responses and the spreadsheet reader are explicit inputs, exceptions
are Except values, and the ambient clock is a parameter. -/

/-! Basic string helpers, modelling Python and pandas string primitives. -/

/-- Strip leading and trailing whitespace, as Python str.strip and the pandas
Series.str.strip accessor do. -/
def strTrim (s : String) : String :=
  ⟨((s.toList.dropWhile Char.isWhitespace).reverse.dropWhile Char.isWhitespace).reverse⟩

/-- Boolean prefix test on character lists. -/
def listPrefixOf : List Char → List Char → Bool
  | [], _ => true
  | _ :: _, [] => false
  | a :: as, b :: bs => a == b && listPrefixOf as bs

/-- Boolean substring search on character lists. -/
def strContainsL (pat : List Char) : List Char → Bool
  | [] => listPrefixOf pat []
  | c :: t => listPrefixOf pat (c :: t) || strContainsL pat t

/-- Substring containment, modelling the Python `in` operator on strings and
the pandas Series.str.contains accessor with a plain (non-regex) needle. -/
def strContains (s pat : String) : Bool := strContainsL pat.toList s.toList

/-- Numeric value of a decimal digit character. -/
def digVal (c : Char) : Nat := c.toNat - 48

/-- Value of a list of decimal digit characters, most significant first. -/
def digitsToNat (cs : List Char) : Nat := cs.foldl (fun a c => a * 10 + digVal c) 0

/-- Exponent suffix of a float literal, applied to a mantissa given as an
integer numerator over a power-of-ten denominator; used by toNumeric. -/
def expPart (num : Int) (den : Nat) (t : List Char) : Option Rat :=
  let sg : Int × List Char :=
    match t with
    | '-' :: u => (-1, u)
    | '+' :: u => (1, u)
    | _ => (1, t)
  let ds := sg.2.takeWhile Char.isDigit
  let rest := sg.2.dropWhile Char.isDigit
  if ds.isEmpty || !rest.isEmpty then none
  else if sg.1 < 0 then some (mkRat num (den * 10 ^ digitsToNat ds))
  else some (mkRat (num * ((10 ^ digitsToNat ds : Nat) : Int)) den)

/-- Decimal numeric coercion of a string: models pandas to_numeric with
errors coerce applied to a string element (optional sign, decimal digits with
an optional fractional part, optional exponent). Unparseable strings become
an absent value. -/
def toNumeric (s : String) : Option Rat :=
  let cs := s.toList
  let sgncs : Int × List Char :=
    match cs with
    | '-' :: t => (-1, t)
    | '+' :: t => (1, t)
    | _ => (1, cs)
  let ip := sgncs.2.takeWhile Char.isDigit
  let r1 := sgncs.2.dropWhile Char.isDigit
  let fpr : List Char × List Char :=
    match r1 with
    | '.' :: t => (t.takeWhile Char.isDigit, t.dropWhile Char.isDigit)
    | _ => ([], r1)
  if ip.isEmpty && fpr.1.isEmpty then none
  else
    let num : Int := sgncs.1 * ((digitsToNat ip * 10 ^ fpr.1.length + digitsToNat fpr.1 : Nat) : Int)
    let den : Nat := 10 ^ fpr.1.length
    match fpr.2 with
    | [] => some (mkRat num den)
    | 'e' :: t => expPart num den t
    | 'E' :: t => expPart num den t
    | _ => none

/-- Truncation of a rational toward zero, as numpy float-to-int astype does. -/
def truncRat (q : Rat) : Int := q.num.tdiv (q.den : Int)

/-! Data model: calendar dates and heterogeneous spreadsheet cells. -/

/-- Calendar date as carried by a Python datetime with zero time component. -/
structure PyDate where
  year : Nat
  month : Nat
  day : Nat
deriving DecidableEq

/-- Heterogeneous spreadsheet or dataframe cell: a string, an integer, a
float (as a rational), a date, a generation timestamp, or a missing value. -/
inductive Cell where
  | str : String → Cell
  | int : Int → Cell
  | num : Rat → Cell
  | date : PyDate → Cell
  | time : Nat → Cell
  | na : Cell
deriving DecidableEq

/-- String rendering of a cell, as the pandas astype str conversion: missing
values render as the string nan, integer-valued floats keep a trailing .0. -/
def pyStr : Cell → String
  | Cell.str s => s
  | Cell.int n => toString n
  | Cell.num q => if q.den == 1 then toString q.num ++ ".0" else toString q
  | Cell.date d => toString d.year ++ "-" ++ toString d.month ++ "-" ++ toString d.day
  | Cell.time t => "Timestamp-" ++ toString t
  | Cell.na => "nan"

/-- Labelled two-dimensional grid: column names plus rows of cells, each row
aligned positionally with the column list. -/
structure DataFrame where
  columns : List String
  rows : List (List Cell)
deriving DecidableEq

/-- First index satisfying a predicate. -/
def findIdxA {α : Type} (p : α → Bool) : List α → Option Nat
  | [] => none
  | x :: xs => if p x then some 0 else (findIdxA p xs).map (· + 1)

/-- Index of the first column with the given label. -/
def findCol (cols : List String) (c : String) : Option Nat :=
  findIdxA (fun x => x == c) cols

/-- Cell of a row under a column label (missing label or short row gives a
missing value; pandas raises there, but every use below is guarded). -/
def rowGet (cols : List String) (r : List Cell) (c : String) : Cell :=
  match findCol cols c with
  | some i => r.getD i Cell.na
  | none => Cell.na

/-- Column extraction, as indexing a dataframe with a label. -/
def DataFrame.getCol (df : DataFrame) (c : String) : List Cell :=
  match findCol df.columns c with
  | some i => df.rows.map (fun r => r.getD i Cell.na)
  | none => []

/-- Column assignment, as a pandas setitem on a label: overwrite the column
in place when the label exists, else append a new column on the right. -/
def DataFrame.assign (df : DataFrame) (c : String) (vals : List Cell) : DataFrame :=
  match findCol df.columns c with
  | some i => ⟨df.columns, (df.rows.zip vals).map (fun p => p.1.set i p.2)⟩
  | none => ⟨df.columns ++ [c], (df.rows.zip vals).map (fun p => p.1 ++ [p.2])⟩

/-- In-place elementwise transformation of one column, as the pattern
df[c] = df[c].map-style accessor chains in the source. -/
def DataFrame.mapCol (df : DataFrame) (c : String) (f : Cell → Cell) : DataFrame :=
  match findCol df.columns c with
  | some i => ⟨df.columns, df.rows.map (fun r => r.set i (f (r.getD i Cell.na)))⟩
  | none => df

/-- Boolean-mask row filtering keyed on one column, as df = df[mask]. -/
def DataFrame.filterByCol (df : DataFrame) (c : String) (p : Cell → Bool) : DataFrame :=
  match findCol df.columns c with
  | some i => ⟨df.columns, df.rows.filter (fun r => p (r.getD i Cell.na))⟩
  | none => df

/-- Column relabelling, as DataFrame.rename with a mapping function. -/
def DataFrame.rename (df : DataFrame) (f : String → String) : DataFrame :=
  ⟨df.columns.map f, df.rows⟩

/-- Column projection, as indexing a dataframe with a list of labels. -/
def DataFrame.select (df : DataFrame) (cs : List String) : DataFrame :=
  ⟨cs, df.rows.map (fun r => cs.map (fun c => rowGet df.columns r c))⟩

/-! Row Normalizer (process_dataframe in async.py). -/

/-- Source column label for the instrument code. -/
def cCode : String := "Код Инструмента"

/-- Source column label for the instrument name. -/
def cName : String := "Наименование Инструмента"

/-- Source column label for the delivery basis. -/
def cBasis : String := "Базис поставки"

/-- Source column label for the volume in measurement units. -/
def cVol : String := "Объем Договоров в единицах измерения"

/-- Source column label for the total in roubles. -/
def cTot : String := "Обьем Договоров, руб."

/-- Source column label for the contract count. -/
def cCnt : String := "Количество Договоров, шт."

/-- Expected columns checked at the top of process_dataframe. -/
def expected_columns : List String := [cCode, cName, cBasis, cVol, cTot, cCnt]

/-- Summary-row marker substring in instrument codes. -/
def totalWord : String := "Итого"

/-- Output column label for the exchange product id. -/
def nEpid : String := "exchange_product_id"

/-- Output column label for the exchange product name. -/
def nEpname : String := "exchange_product_name"

/-- Output column label for the delivery basis name. -/
def nBasisName : String := "delivery_basis_name"

/-- Output column label for the oil id. -/
def nOil : String := "oil_id"

/-- Output column label for the delivery basis id. -/
def nBasisId : String := "delivery_basis_id"

/-- Output column label for the delivery type id. -/
def nTypeId : String := "delivery_type_id"

/-- Output column label for the volume. -/
def nVolume : String := "volume"

/-- Output column label for the total. -/
def nTotal : String := "total"

/-- Output column label for the contract count. -/
def nCount : String := "count"

/-- Output column label for the trade date. -/
def nDate : String := "date"

/-- Output column label for the creation timestamp. -/
def nCreated : String := "created_on"

/-- Output column label for the update timestamp. -/
def nUpdated : String := "updated_on"

/-- Column set and order of the record batch built by process_dataframe. -/
def outNames : List String :=
  [nEpid, nEpname, nOil, nBasisId, nBasisName, nTypeId, nVolume, nTotal, nCount,
   nDate, nCreated, nUpdated]

/-- Relabelling applied at lines 114-118 of async.py. -/
def renameF (c : String) : String :=
  if c == cCode then nEpid
  else if c == cName then nEpname
  else if c == cBasis then nBasisName
  else c

/-- Thousands-separator removal then strip, as the accessor chain
astype(str).str.replace-comma.str.strip at lines 101-103. -/
def cleanNumStr (s : String) : String := strTrim ⟨s.toList.filter (fun ch => ch != ',')⟩

/-- Cell-level form of the cleaning chain at lines 101-103. -/
def cleanCell (c : Cell) : Cell := Cell.str (cleanNumStr (pyStr c))

/-- Numeric coercion of a single cell, as pd.to_numeric with errors coerce
applied elementwise: strings are parsed, numbers pass through, everything
else becomes missing. -/
def toNumericCell : Cell → Option Rat
  | Cell.str s => toNumeric s
  | Cell.int n => some (n : Rat)
  | Cell.num q => some q
  | _ => none

/-- Count coercion at line 105: to_numeric, fillna 0, astype int. -/
def cntCoerceCell (c : Cell) : Cell := Cell.int (truncRat ((toNumericCell c).getD 0))

/-- Decimal coercion at lines 106-107: to_numeric with missing preserved. -/
def decCoerceCell (c : Cell) : Cell := optNumCell (toNumericCell c)
where
  /-- Wrap an optional rational as a float cell or a missing cell. -/
  optNumCell : Option Rat → Cell
    | some q => Cell.num q
    | none => Cell.na

/-- Positivity mask at line 109, df of count greater than zero. -/
def isPos : Cell → Bool
  | Cell.int n => decide (0 < n)
  | Cell.num q => decide (0 < q)
  | _ => false

/-- Non-missing mask at lines 110-111, Series.notna. -/
def notNa : Cell → Bool
  | Cell.na => false
  | _ => true

/-- Oil id derivation at line 120: first four characters of the code. -/
def oilIdOf (c : Cell) : Cell := Cell.str ⟨(pyStr c).toList.take 4⟩

/-- Delivery basis id derivation at line 121: characters four to six. -/
def basisIdOf (c : Cell) : Cell := Cell.str ⟨((pyStr c).toList.drop 4).take 3⟩

/-- Delivery type id derivation at line 122: the accessor str get -1, which
yields the last character and a missing value on an empty string. -/
def typeIdOf (c : Cell) : Cell :=
  match (pyStr c).toList.getLast? with
  | some ch => Cell.str ⟨[ch]⟩
  | none => Cell.na

/-- Row Normalizer, translated from process_dataframe (async.py lines
92-131). The first component is the returned record batch (absent when an
expected column is missing); the second component is the caller's dataframe
after the call, which the source protects with df.copy() at line 99 before
mutating any column. The ambient clock datetime.now() is the parameter now. -/
def process_dataframe (df0 : DataFrame) (trade_date : PyDate) (now : Nat) :
    Option DataFrame × DataFrame :=
  if expected_columns.any (fun c => !(df0.columns.contains c)) then (none, df0)
  else
    let df1 : DataFrame := ⟨df0.columns, df0.rows⟩
    let df2 := df1.mapCol cCnt cleanCell
    let df3 := df2.mapCol cVol cleanCell
    let df4 := df3.mapCol cTot cleanCell
    let df5 := df4.assign nCount ((df4.getCol cCnt).map cntCoerceCell)
    let df6 := df5.assign nVolume ((df5.getCol cVol).map decCoerceCell)
    let df7 := df6.assign nTotal ((df6.getCol cTot).map decCoerceCell)
    let df8 := df7.filterByCol nCount isPos
    let df9 := df8.filterByCol nVolume notNa
    let df10 := df9.filterByCol nTotal notNa
    let df11 := df10.filterByCol cCode (fun c => !(strContains (pyStr c) totalWord))
    let df12 := df11.rename renameF
    let df13 := df12.assign nOil ((df12.getCol nEpid).map oilIdOf)
    let df14 := df13.assign nBasisId ((df13.getCol nEpid).map basisIdOf)
    let df15 := df14.assign nTypeId ((df14.getCol nEpid).map typeIdOf)
    let df16 := df15.assign nDate (List.replicate df15.rows.length (Cell.date trade_date))
    let df17 := df16.assign nCreated (List.replicate df16.rows.length (Cell.time now))
    let df18 := df17.assign nUpdated (List.replicate df17.rows.length (Cell.time now))
    (some (df18.select outNames), df0)

/-! Bulletin Locator (get_bulletin_urls in async.py). -/

/-- Earliest accepted trade year. -/
def START_YEAR : Nat := 2023

/-- Cap on the number of located bulletins. -/
def LIMIT_FILES : Nat := 20

/-- Site root prepended to relative bulletin links. -/
def BASE_URL : String := "https://spimex.com"

/-- Fixed title phrase identifying bulletin links on a listing page. -/
def bulletinTitle : String := "Бюллетень по итогам торгов в Секции «Нефтепродукты»"

/-- Anchor element with an href, its visible text, and the text of the next
span element in document order (the find_next span at line 47), when any. -/
structure Link where
  href : String
  text : String
  nextSpan : Option String
deriving DecidableEq

/-- Regex search for the first two-digit dot two-digit dot four-digit date
occurrence, matched at one starting position; returns day, month, year. -/
def matchDateAt : List Char → Option (Nat × Nat × Nat)
  | d1 :: d2 :: '.' :: m1 :: m2 :: '.' :: y1 :: y2 :: y3 :: y4 :: _ =>
    if d1.isDigit && d2.isDigit && m1.isDigit && m2.isDigit &&
       y1.isDigit && y2.isDigit && y3.isDigit && y4.isDigit then
      some (digitsToNat [d1, d2], digitsToNat [m1, m2], digitsToNat [y1, y2, y3, y4])
    else none
  | _ => none

/-- Leftmost match of the date pattern, as re.search at line 49. -/
def searchDate : List Char → Option (Nat × Nat × Nat)
  | [] => none
  | c :: rest =>
    match matchDateAt (c :: rest) with
    | some r => some r
    | none => searchDate rest

/-- Gregorian leap-year rule, as the datetime module uses. -/
def isLeapYear (y : Nat) : Bool := (y % 4 == 0 && y % 100 != 0) || y % 400 == 0

/-- Number of days in a month of a given year. -/
def daysInMonth (y m : Nat) : Nat :=
  if m == 2 then (if isLeapYear y then 29 else 28)
  else if m == 4 || m == 6 || m == 9 || m == 11 then 30
  else 31

/-- Validity of datetime(year, month, day): the constructor raises ValueError
outside these bounds. -/
def validDate (y m d : Nat) : Bool :=
  decide (1 ≤ y) && decide (y ≤ 9999) && decide (1 ≤ m) && decide (m ≤ 12) &&
  decide (1 ≤ d) && decide (d ≤ daysInMonth y m)

/-- Parsed date of one link: the next span must exist, its stripped text must
be truthy, and the date pattern must occur in it (lines 47-50). -/
def linkDate (l : Link) : Option (Nat × Nat × Nat) :=
  match l.nextSpan with
  | some t => if strTrim t == "" then none else searchDate (strTrim t).toList
  | none => none

/-- Outcome of scanning the links of one listing page: an uncaught ValueError
from the datetime constructor, an early return at the year cutoff, or the
accumulated data together with the found-new flag. -/
inductive ScanOut where
  | err : ScanOut
  | ret : List (String × PyDate) → ScanOut
  | cont : List (String × PyDate) → Bool → ScanOut
deriving DecidableEq

/-- Per-page link scan, translated from the for loop at lines 45-58 of
async.py: keep links whose text contains the bulletin title, read the date
from the next span, build the datetime (raising on an invalid calendar
date), return immediately before the cutoff year, otherwise accumulate the
absolute url with the date and break once the cap is reached. -/
def scanLinks : List Link → List (String × PyDate) → Bool → ScanOut
  | [], data, found => ScanOut.cont data found
  | l :: rest, data, found =>
    if strContains l.text bulletinTitle then
      match l.nextSpan with
      | some spanText =>
        if strTrim spanText == "" then scanLinks rest data found
        else
          match searchDate (strTrim spanText).toList with
          | some (d, m, y) =>
            if validDate y m d then
              if y < START_YEAR then ScanOut.ret data
              else
                let data2 := data ++ [(BASE_URL ++ l.href, PyDate.mk y m d)]
                if LIMIT_FILES ≤ data2.length then ScanOut.cont data2 true
                else scanLinks rest data2 true
            else ScanOut.err
          | none => scanLinks rest data found
      | none => scanLinks rest data found
    else scanLinks rest data found

/-- Pagination loop of get_bulletin_urls (lines 39-62): while fewer than the
cap have been collected, scan the next listing page; stop when a page yields
no new entry, propagate a ValueError, or return at the cutoff. Pages beyond
the supplied listing are served empty, so scanning them yields nothing new. -/
def bulletinLoop : List (List Link) → List (String × PyDate) →
    Except Unit (List (String × PyDate))
  | pages, data =>
    if LIMIT_FILES ≤ data.length then Except.ok data
    else
      match pages with
      | [] => Except.ok data
      | p :: rest =>
        match scanLinks p data false with
        | ScanOut.err => Except.error ()
        | ScanOut.ret d => Except.ok d
        | ScanOut.cont d found => if found then bulletinLoop rest d else Except.ok d

/-- Bulletin Locator over the sequence of listing pages the site serves. -/
def get_bulletin_urls (pages : List (List Link)) : Except Unit (List (String × PyDate)) :=
  bulletinLoop pages []

/-! Fetcher and Spreadsheet Extractor (fetch_html and download_and_parse). -/

/-- HTTP response as the shared client session delivers it: a status code,
the raw byte body, and the decoded text body. -/
structure HttpResponse where
  status : Nat
  body : List Nat
  text : String
deriving DecidableEq

/-- Listing-page fetch (async.py lines 29-32): raise_for_status raises a
client-response error for any status of 400 or above, otherwise the decoded
text is returned. -/
def fetch_html (resp : HttpResponse) : Except Nat String :=
  if 400 ≤ resp.status then Except.error resp.status else Except.ok resp.text

/-- Raw spreadsheet sheet as read with no header: a grid of cells. -/
abbrev RawSheet : Type := List (List Cell)

/-- Marker phrase locating the start of the data table inside a sheet. -/
def markerText : String := "Единица измерения: Метрическая тонна"

/-- Marker-row test at line 82: some cell is a string containing the marker. -/
def markerInRow (r : List Cell) : Bool :=
  r.any (fun c =>
    match c with
    | Cell.str s => strContains s markerText
    | _ => false)

/-- Table extraction from one sheet (lines 80-87): find the first marker row,
treat the next row as the header and the rows below it as the body, and
normalize header whitespace (newline to space, then strip). A marker in the
very last row makes the header access raise an uncaught IndexError, encoded
as the error outcome; a sheet without a marker yields none. -/
def extractFromSheet (rows : RawSheet) : Option (Except Unit DataFrame) :=
  match findIdxA markerInRow rows with
  | none => none
  | some i =>
    match rows.drop (i + 1) with
    | [] => some (Except.error ())
    | hdr :: body =>
      some (Except.ok ⟨hdr.map (fun c =>
        strTrim ⟨(pyStr c).toList.map (fun ch => if ch == '\n' then ' ' else ch)⟩), body⟩)

/-- Sheet scan of the workbook in stored order (line 80): the first sheet
containing a marker decides the outcome; with no marker anywhere the
function falls through to returning absent. -/
def scanSheets : List RawSheet → Except Unit (Option DataFrame)
  | [] => Except.ok none
  | s :: rest =>
    match extractFromSheet s with
    | none => scanSheets rest
    | some (Except.error e) => Except.error e
    | some (Except.ok df) => Except.ok (some df)

/-- Spreadsheet Extractor, translated from download_and_parse (async.py lines
67-89). The bulletin-file response is read without any status check (lines
68-69 never call raise_for_status), and the bytes go to the legacy
spreadsheet reader, supplied here as the readExcel parameter standing for
the pandas read_excel call with the xlrd engine; the bare except at line 77
turns any reader failure (including the temporary-file plumbing) into an
absent result. -/
def download_and_parse (readExcel : List Nat → Option (List RawSheet))
    (resp : HttpResponse) : Except Unit (Option DataFrame) :=
  let content := resp.body
  match readExcel content with
  | none => Except.ok none
  | some sheets => scanSheets sheets

/-! Persister (save_to_db in async.py). -/

/-- Staging of one record in the session's unit of work, as Session.add.
The SQLAlchemy add performs no database round-trip: it only registers the
object with the session, so it returns successfully for every record and in
particular never signals an IntegrityError; integrity conflicts surface
later, when the transaction is flushed by commit. -/
def session_add {α : Type} (pending : List α) (r : α) : Except Unit (List α) :=
  Except.ok (pending ++ [r])

/-- Per-record staging loop of save_to_db (lines 136-141): each record is
added inside a try block whose except IntegrityError branch would discard
the pending unit of work by rolling back; since add always succeeds, that
branch is unreachable. -/
def addLoop {α : Type} : List α → List α → List α
  | pending, [] => pending
  | pending, r :: rest =>
    match session_add pending r with
    | Except.ok p2 => addLoop p2 rest
    | Except.error _ => addLoop ([] : List α) rest

/-- Sequential flush of the staged records at commit time against a backend
uniqueness check: the first conflicting record raises IntegrityError, which
rolls the whole transaction back. -/
def flushInserts {α : Type} (conflict : α → List α → Bool) : List α → List α → Option (List α)
  | db, [] => some db
  | db, r :: rest => if conflict r db then none else flushInserts conflict (db ++ [r]) rest

/-- Persister, translated from save_to_db (async.py lines 134-142): stage
every record of the batch, then commit once. The commit is outside any
handler, so a conflict detected at flush time propagates and the stored
state keeps its prior contents (the error outcome carries no new state). -/
def save_to_db {α : Type} (conflict : α → List α → Bool) (db : List α)
    (batch : List α) : Except Unit (List α) :=
  match flushInserts conflict db (addLoop [] batch) with
  | some db2 => Except.ok db2
  | none => Except.error ()

/-! Concrete instances used in the witnesses and counterexamples below. -/

/-- Listing link whose date text matches the date pattern but is not a valid
calendar date, so datetime raises ValueError. -/
def invalidDateLink : Link := ⟨"/x", bulletinTitle, some "31.02.2022"⟩

/-- Listing link with an invalid calendar date used in the witness. -/
def invalidDateLink2 : Link := ⟨"/y", bulletinTitle, some "32.13.2022"⟩

/-- Listing link whose span text contains no date pattern at all. -/
def undatedLink : Link := ⟨"/a", bulletinTitle, some "no date here"⟩

/-- Well-formed listing link dated first of January 2024. -/
def janLink : Link := ⟨"/a", bulletinTitle, some "01.01.2024"⟩

/-- Trade date used by the concrete normalizer runs. -/
def wDate : PyDate := ⟨2024, 1, 1⟩

/-- Input grid whose rows exercise the keep and drop conditions: a kept row
with a negative volume, a summary row, a row with an unparseable volume, and
a kept row whose instrument code is the empty string. -/
def wGrid : DataFrame :=
  ⟨[cCode, cName, cBasis, cVol, cTot, cCnt],
   [[Cell.str "A100B", Cell.str "x", Cell.str "y", Cell.str "-5", Cell.str "10", Cell.str "1"],
    [Cell.str "Итого:", Cell.str "x", Cell.str "y", Cell.str "7", Cell.str "10", Cell.str "2"],
    [Cell.str "B200C", Cell.str "x", Cell.str "y", Cell.str "abc", Cell.str "10", Cell.str "2"],
    [Cell.str "", Cell.str "x", Cell.str "y", Cell.str "2", Cell.str "3", Cell.str "1"]]⟩

/-- First output row of the normalizer on wGrid. -/
def wRow1 : List Cell :=
  [Cell.str "A100B", Cell.str "x", Cell.str "A100", Cell.str "B", Cell.str "y", Cell.str "B",
   Cell.num (-5), Cell.num 10, Cell.int 1, Cell.date wDate, Cell.time 0, Cell.time 0]

/-- Second output row of the normalizer on wGrid (empty instrument code). -/
def wRow2 : List Cell :=
  [Cell.str "", Cell.str "x", Cell.str "", Cell.str "", Cell.str "y", Cell.na,
   Cell.num 2, Cell.num 3, Cell.int 1, Cell.date wDate, Cell.time 0, Cell.time 0]

/-- Input grid with the six expected columns and a single clean row whose
instrument code is well formed, used for the scenario witnesses. -/
def wGridA100 : DataFrame :=
  ⟨[cCode, cName, cBasis, cVol, cTot, cCnt],
   [[Cell.str "A100", Cell.str "n", Cell.str "b", Cell.str "1,234.5", Cell.str "10", Cell.str "2"]]⟩

/-- Grid missing the contract-count column. -/
def wGridMissing : DataFrame :=
  ⟨[cCode, cName, cBasis, cVol, cTot],
   [[Cell.str "A100B", Cell.str "x", Cell.str "y", Cell.str "1", Cell.str "2"]]⟩

/-- Composite count coercion the Normalizer applies to an input cell: string
rendering, comma removal and strip, decimal parse, absent becomes zero,
truncation to an integer (lines 101 and 105). -/
def coerceCount (c : Cell) : Int := truncRat ((toNumeric (cleanNumStr (pyStr c))).getD 0)

/-- Composite decimal coercion the Normalizer applies to an input cell:
string rendering, comma removal and strip, decimal parse (lines 102-103 and
106-107), keeping absent for an unparseable value. -/
def coerceDec (c : Cell) : Option Rat := toNumeric (cleanNumStr (pyStr c))

/-- Specification-side row-keep predicate (refinement target for the
Normalizer claims): a row survives exactly when its coerced contract count
is positive, its volume and total coerce to numbers, and its instrument
code does not contain the summary marker. All lookups read the original
input row. -/
def keepRowSpec (cols : List String) (r : List Cell) : Bool :=
  ((decide (0 < coerceCount (rowGet cols r cCnt)) &&
      (coerceDec (rowGet cols r cVol)).isSome) &&
    (coerceDec (rowGet cols r cTot)).isSome) &&
  !(strContains (pyStr (rowGet cols r cCode)) totalWord)

/-- Specification-side output row (refinement target for the Normalizer
claims): the twelve output cells of one surviving input row, in the order of
outNames, expressed by lookups on the original input row. -/
def buildRowSpec (cols : List String) (td : PyDate) (now : Nat) (r : List Cell) : List Cell :=
  [rowGet cols r cCode,
   rowGet cols r cName,
   oilIdOf (rowGet cols r cCode),
   basisIdOf (rowGet cols r cCode),
   rowGet cols r cBasis,
   typeIdOf (rowGet cols r cCode),
   decCoerceCell (cleanCell (rowGet cols r cVol)),
   decCoerceCell (cleanCell (rowGet cols r cTot)),
   cntCoerceCell (cleanCell (rowGet cols r cCnt)),
   Cell.date td, Cell.time now, Cell.time now]

/-- Well-formedness of an input grid for the Normalizer theorems: rows are
rectangular, the six expected source columns are present, and none of the
twelve output labels is already taken (a bulletin grid carries the source
locale's labels, not the storage-layer ones). -/
def InputOK (df : DataFrame) : Prop :=
  (∀ r ∈ df.rows, r.length = df.columns.length) ∧
  (∀ c ∈ expected_columns, c ∈ df.columns) ∧
  (∀ c ∈ outNames, c ∉ df.columns)

/-- Entries carried by a page-scan outcome (none for an uncaught error). -/
def scanEntries : ScanOut → List (String × PyDate)
  | ScanOut.err => []
  | ScanOut.ret d => d
  | ScanOut.cont d _ => d

/-! Helper lemmas. -/

/-- A predicate false on every element gives no first index. -/
theorem findIdxA_eq_none {α : Type} (p : α → Bool) (l : List α)
    (h : ∀ x ∈ l, p x = false) : findIdxA p l = none := by
  induction l with
  | nil => rfl
  | cons x xs ih =>
    have hx := h x (List.mem_cons_self x xs)
    have hrest := ih (fun y hy => h y (List.mem_cons_of_mem x hy))
    simp [findIdxA, hx, hrest]

/-- Sheet scan over a workbook none of whose sheets contains a marker row. -/
theorem scanSheets_no_marker (sheets : List RawSheet)
    (h : ∀ s ∈ sheets, ∀ r ∈ s, markerInRow r = false) :
    scanSheets sheets = Except.ok none := by
  induction sheets with
  | nil => rfl
  | cons s rest ih =>
    have hs : extractFromSheet s = none := by
      unfold extractFromSheet
      rw [findIdxA_eq_none markerInRow s (h s (List.mem_cons_self s rest))]
    have hrest := ih (fun t ht => h t (List.mem_cons_of_mem s ht))
    unfold scanSheets
    rw [hs, hrest]

/-! Claim theorems. -/

/-- C10: for every input grid, trade date, and clock value, the Normalizer
leaves the caller's dataframe untouched: every column name and every row of
cells is identical after the call, whether or not a batch is returned,
because the source copies the frame before mutating any column. -/
theorem spx_C10_no_frame_mutation (df : DataFrame) (td : PyDate) (now : Nat) :
    ((process_dataframe df td now).2).columns = df.columns ∧
    ((process_dataframe df td now).2).rows = df.rows := by
  unfold process_dataframe
  split <;> exact ⟨rfl, rfl⟩

/-- C9: when any of the six expected columns is absent from the input grid,
the Normalizer returns absent without raising and without touching the
caller's grid. -/
theorem spx_C9_missing_column (df : DataFrame) (td : PyDate) (now : Nat)
    (h : ∃ c ∈ expected_columns, c ∉ df.columns) :
    process_dataframe df td now = (none, df) := by
  obtain ⟨c, hc, hnot⟩ := h
  have hcond : expected_columns.any (fun c => !(df.columns.contains c)) = true := by
    simp only [List.any_eq_true]
    exact ⟨c, hc, by simp [hnot]⟩
  unfold process_dataframe
  rw [if_pos hcond]

/-- Witness for C9 at a grid lacking the contract-count column. -/
theorem spx_C9_missing_column_witness :
    (∃ c ∈ expected_columns, c ∉ wGridMissing.columns) ∧
    process_dataframe wGridMissing wDate 0 = (none, wGridMissing) :=
  ⟨by decide, spx_C9_missing_column wGridMissing wDate 0 (by decide)⟩

/-- C1: the staging step Session.add never signals an integrity conflict, so
the except-rollback branch of save_to_db is dead; a duplicate surfaces only
at the single uncaught commit, which aborts the whole batch. Concretely,
committing a batch of two identical records against a backend that enforces
uniqueness raises instead of persisting the first record. -/
theorem spx_C1_commit_aborts_batch :
    save_to_db (fun (r : Nat) db => db.contains r) [] [7, 7] = Except.error () := rfl

/-- C4 counterexample: a bulletin-file fetch with status 404 whose body the
spreadsheet reader rejects is not an error of the Extractor: the file is
silently skipped (absent result), because download_and_parse never checks
the response status. -/
theorem spx_C4_counterexample :
    download_and_parse (fun _ => none) ⟨404, [], ""⟩ = Except.ok none := rfl

/-- C4 amended: a listing-page fetch raises on every non-success status, but
a bulletin-file fetch never inspects the status: whenever the delivered body
is unreadable as a workbook (as an error page is), the file is skipped
silently rather than aborting the run. -/
theorem spx_C4_amended_fetch_raises (resp : HttpResponse) (h : 400 ≤ resp.status) :
    fetch_html resp = Except.error resp.status ∧
    ∀ readExcel, readExcel resp.body = none →
      download_and_parse readExcel resp = Except.ok none := by
  constructor
  · unfold fetch_html
    rw [if_pos h]
  · intro readExcel hre
    simp only [download_and_parse, hre]

/-- Witness for the amended C4 at a concrete 404 response. -/
theorem spx_C4_amended_fetch_raises_witness :
    (400 ≤ (404 : Nat)) ∧
    (fetch_html ⟨404, [7], "err"⟩ = Except.error 404 ∧
     ∀ readExcel, readExcel [7] = none →
       download_and_parse readExcel ⟨404, [7], "err"⟩ = Except.ok none) :=
  ⟨by decide, spx_C4_amended_fetch_raises ⟨404, [7], "err"⟩ (by decide)⟩

/-- C5: the Extractor returns absent rather than raising both when the byte
stream cannot be parsed as a legacy workbook and when the workbook parses
but no sheet contains the marker phrase. -/
theorem spx_C5_extractor_absent (readExcel : List Nat → Option (List RawSheet))
    (resp : HttpResponse) :
    (readExcel resp.body = none → download_and_parse readExcel resp = Except.ok none) ∧
    (∀ sheets, readExcel resp.body = some sheets →
      (∀ s ∈ sheets, ∀ r ∈ s, markerInRow r = false) →
      download_and_parse readExcel resp = Except.ok none) := by
  constructor
  · intro h
    simp only [download_and_parse, h]
  · intro sheets h hm
    simp only [download_and_parse, h]
    exact scanSheets_no_marker sheets hm

/-- Witness for C5: an unreadable byte stream and a markerless workbook both
yield an absent extraction. -/
theorem spx_C5_extractor_absent_witness :
    ((fun (_ : List Nat) => (none : Option (List RawSheet))) [2] = none →
      download_and_parse (fun _ => none) ⟨200, [2], ""⟩ = Except.ok none) ∧
    (∀ sheets, (fun (_ : List Nat) => some [[[Cell.str "hello"], [Cell.num 3]]]) [2] = some sheets →
      (∀ s ∈ sheets, ∀ r ∈ s, markerInRow r = false) →
      download_and_parse (fun _ => some [[[Cell.str "hello"], [Cell.num 3]]]) ⟨200, [2], ""⟩ =
        Except.ok none) :=
  spx_C5_extractor_absent (fun _ => some [[[Cell.str "hello"], [Cell.num 3]]]) ⟨200, [2], ""⟩
    |>.2 |> fun h2 =>
      ⟨fun _ => (spx_C5_extractor_absent (fun _ => none) ⟨200, [2], ""⟩).1 rfl, h2⟩

/-- C3 counterexample: a listing page whose only bulletin link carries the
date text 31.02.2022 makes the Locator raise (the datetime constructor
signals ValueError before the year cutoff is consulted), instead of skipping
the link or returning the entries collected so far. -/
theorem spx_C3_counterexample :
    get_bulletin_urls [[invalidDateLink]] = Except.error () := rfl

/-- Every entry accumulated by a page scan that starts from entries at or
after the cutoff year itself lies at or after the cutoff year, because the
scan returns before appending any earlier-dated entry. -/
theorem scanLinks_year (links : List Link) :
    ∀ (data : List (String × PyDate)) (found : Bool),
      (∀ e ∈ data, START_YEAR ≤ e.2.year) →
      ∀ e ∈ scanEntries (scanLinks links data found), START_YEAR ≤ e.2.year := by
  induction links with
  | nil =>
    intro data found h
    simpa [scanLinks, scanEntries] using h
  | cons l rest ih =>
    intro data found h
    rw [scanLinks]
    split
    case isTrue =>
      cases hns : l.nextSpan with
      | none => exact ih data found h
      | some spanText =>
        cases ht : (strTrim spanText == "") with
        | true => simp only [ht, if_true]; exact ih data found h
        | false =>
          simp only [ht, Bool.false_eq_true, if_false]
          cases hsd : searchDate (strTrim spanText).toList with
          | none => simp only [hsd]; exact ih data found h
          | some tri =>
            obtain ⟨d, m, y⟩ := tri
            simp only [hsd]
            cases hv : validDate y m d with
            | false => simp [hv, scanEntries]
            | true =>
              simp only [hv, if_true]
              by_cases hy : y < START_YEAR
              · simp only [if_pos hy]
                simpa [scanEntries] using h
              · simp only [if_neg hy]
                have hdata2 : ∀ e ∈ data ++ [(BASE_URL ++ l.href, PyDate.mk y m d)],
                    START_YEAR ≤ e.2.year := by
                  intro e he
                  rcases List.mem_append.mp he with h1 | h1
                  · exact h e h1
                  · have : e = (BASE_URL ++ l.href, PyDate.mk y m d) := by simpa using h1
                    subst this
                    exact Nat.le_of_not_lt hy
                by_cases hl : LIMIT_FILES ≤ (data ++ [(BASE_URL ++ l.href, PyDate.mk y m d)]).length
                · simp only [if_pos hl]
                  simpa [scanEntries] using hdata2
                · simp only [if_neg hl]
                  exact ih _ true hdata2
    case isFalse => exact ih data found h

/-- A page scan that starts strictly below the result cap never accumulates
more than the cap, because each append is followed by the cap check. -/
theorem scanLinks_len (links : List Link) :
    ∀ (data : List (String × PyDate)) (found : Bool),
      data.length < LIMIT_FILES →
      (scanEntries (scanLinks links data found)).length ≤ LIMIT_FILES := by
  induction links with
  | nil =>
    intro data found h
    simpa [scanLinks, scanEntries] using Nat.le_of_lt h
  | cons l rest ih =>
    intro data found h
    rw [scanLinks]
    split
    case isTrue =>
      cases hns : l.nextSpan with
      | none => exact ih data found h
      | some spanText =>
        cases ht : (strTrim spanText == "") with
        | true => simp only [ht, if_true]; exact ih data found h
        | false =>
          simp only [ht, Bool.false_eq_true, if_false]
          cases hsd : searchDate (strTrim spanText).toList with
          | none => simp only [hsd]; exact ih data found h
          | some tri =>
            obtain ⟨d, m, y⟩ := tri
            simp only [hsd]
            cases hv : validDate y m d with
            | false => simp [hv, scanEntries]
            | true =>
              simp only [hv, if_true]
              by_cases hy : y < START_YEAR
              · simp only [if_pos hy]
                simpa [scanEntries] using Nat.le_of_lt h
              · simp only [if_neg hy]
                have hlen2 : (data ++ [(BASE_URL ++ l.href, PyDate.mk y m d)]).length =
                    data.length + 1 := by simp
                by_cases hl : LIMIT_FILES ≤ (data ++ [(BASE_URL ++ l.href, PyDate.mk y m d)]).length
                · simp only [if_pos hl]
                  simp only [scanEntries, hlen2]
                  exact Nat.succ_le_of_lt h
                · simp only [if_neg hl]
                  exact ih _ true (Nat.lt_of_not_le (by simpa [hlen2] using hl))
    case isFalse => exact ih data found h

/-- Pagination-loop invariant: starting from an accumulator within the cap
whose entries all lie at or after the cutoff year, a successful run of the
loop returns a list within the cap whose entries all lie at or after the
cutoff year. -/
theorem bulletinLoop_spec (pages : List (List Link)) :
    ∀ (data : List (String × PyDate)),
      data.length ≤ LIMIT_FILES →
      (∀ e ∈ data, START_YEAR ≤ e.2.year) →
      ∀ out, bulletinLoop pages data = Except.ok out →
        out.length ≤ LIMIT_FILES ∧ ∀ e ∈ out, START_YEAR ≤ e.2.year := by
  induction pages with
  | nil =>
    intro data hlen hyr out hout
    rw [bulletinLoop] at hout
    split at hout
    · cases hout; exact ⟨hlen, hyr⟩
    · cases hout; exact ⟨hlen, hyr⟩
  | cons p rest ih =>
    intro data hlen hyr out hout
    rw [bulletinLoop] at hout
    split at hout
    · cases hout; exact ⟨hlen, hyr⟩
    case isFalse hnot =>
      have hlt : data.length < LIMIT_FILES := Nat.lt_of_not_le hnot
      cases hscan : scanLinks p data false with
      | err => rw [hscan] at hout; cases hout
      | ret d =>
        rw [hscan] at hout
        cases hout
        have h1 := scanLinks_len p data false hlt
        have h2 := scanLinks_year p data false hyr
        rw [hscan] at h1 h2
        exact ⟨h1, h2⟩
      | cont d found =>
        rw [hscan] at hout
        have h1 := scanLinks_len p data false hlt
        have h2 := scanLinks_year p data false hyr
        rw [hscan] at h1 h2
        cases found with
        | true => exact ih d h1 h2 out hout
        | false => cases hout; exact ⟨h1, h2⟩

/-- C2: whatever sequence of listing pages the site serves, a successful
Locator run returns at most LIMIT_FILES entries, and no returned entry has a
trade year strictly before START_YEAR. -/
theorem spx_C2_cap_and_cutoff (pages : List (List Link)) (out : List (String × PyDate))
    (h : get_bulletin_urls pages = Except.ok out) :
    out.length ≤ LIMIT_FILES ∧ ∀ e ∈ out, START_YEAR ≤ e.2.year :=
  bulletinLoop_spec pages [] (by simp [LIMIT_FILES]) (by simp) out h

/-- Witness for C2 on a one-page listing with a single dated bulletin link. -/
theorem spx_C2_cap_and_cutoff_witness :
    (get_bulletin_urls [[janLink]] =
      Except.ok [("https://spimex.com/a", PyDate.mk 2024 1 1)]) ∧
    ([("https://spimex.com/a", PyDate.mk 2024 1 1)].length ≤ LIMIT_FILES ∧
      ∀ e ∈ [("https://spimex.com/a", PyDate.mk 2024 1 1)], START_YEAR ≤ e.2.year) :=
  ⟨rfl, spx_C2_cap_and_cutoff [[janLink]] [("https://spimex.com/a", PyDate.mk 2024 1 1)] rfl⟩

/-- A link whose date cannot be read (no next span, blank span text, or no
date-pattern occurrence) is skipped and the scan continues with the rest. -/
theorem scanLinks_skip (l : Link) (rest : List Link) (data : List (String × PyDate))
    (found : Bool) (h : linkDate l = none) :
    scanLinks (l :: rest) data found = scanLinks rest data found := by
  rw [scanLinks]
  split
  case isTrue =>
    unfold linkDate at h
    cases hns : l.nextSpan with
    | none => rfl
    | some spanText =>
      rw [hns] at h
      cases ht : (strTrim spanText == "") with
      | true => simp [ht]
      | false =>
        simp only [ht, Bool.false_eq_true, if_false] at h
        simp only [String.toList] at h
        simp [ht, h]
  case isFalse => rfl

/-- A phrase-matching link whose span text matches the date pattern with an
invalid calendar date makes the scan raise: the datetime constructor signals
ValueError before the year cutoff is consulted. -/
theorem scanLinks_invalid (l : Link) (rest : List Link) (data : List (String × PyDate))
    (found : Bool) (d m y : Nat) (hphrase : strContains l.text bulletinTitle = true)
    (hdate : linkDate l = some (d, m, y)) (hval : validDate y m d = false) :
    scanLinks (l :: rest) data found = ScanOut.err := by
  rw [scanLinks]
  unfold linkDate at hdate
  cases hns : l.nextSpan with
  | none => rw [hns] at hdate; simp at hdate
  | some spanText =>
    rw [hns] at hdate
    cases ht : (strTrim spanText == "") with
    | true => simp only [ht, if_true] at hdate; simp at hdate
    | false =>
      simp only [ht, Bool.false_eq_true, if_false] at hdate
      simp only [String.toList] at hdate
      simp [hphrase, ht, hdate, hval]

/-- The ValueError from an invalid calendar date propagates out of the
pagination loop, so the Locator aborts with no entries at all. -/
theorem locator_raises_invalid (l : Link) (rest : List Link) (d m y : Nat)
    (hphrase : strContains l.text bulletinTitle = true)
    (hdate : linkDate l = some (d, m, y)) (hval : validDate y m d = false) :
    get_bulletin_urls [l :: rest] = Except.error () := by
  unfold get_bulletin_urls bulletinLoop
  rw [if_neg (by decide)]
  simp [scanLinks_invalid l rest [] false d m y hphrase hdate hval]

/-- C3 amended: a link whose date text yields no pattern match is skipped
with scanning continuing (and never appears in the result); but a
phrase-matching link whose date text matches the pattern with an invalid
calendar date (such as 31.02.2022) raises, and the error propagates out of
the Locator, which therefore returns nothing rather than the entries
collected before the link. -/
theorem spx_C3_amended_skip_or_raise :
    (∀ (l : Link) (rest : List Link) (data : List (String × PyDate)) (found : Bool),
       linkDate l = none → scanLinks (l :: rest) data found = scanLinks rest data found) ∧
    (∀ (l : Link) (rest : List Link) (data : List (String × PyDate)) (found : Bool) (d m y : Nat),
       strContains l.text bulletinTitle = true → linkDate l = some (d, m, y) →
       validDate y m d = false → scanLinks (l :: rest) data found = ScanOut.err) ∧
    (∀ (l : Link) (rest : List Link) (d m y : Nat),
       strContains l.text bulletinTitle = true → linkDate l = some (d, m, y) →
       validDate y m d = false → get_bulletin_urls [l :: rest] = Except.error ()) :=
  ⟨fun l rest data found h => scanLinks_skip l rest data found h,
   fun l rest data found d m y h1 h2 h3 => scanLinks_invalid l rest data found d m y h1 h2 h3,
   fun l rest d m y h1 h2 h3 => locator_raises_invalid l rest d m y h1 h2 h3⟩

/-- Witness for the amended C3: a dateless link is skipped, and a link dated
32.13.2022 makes the Locator raise. -/
theorem spx_C3_amended_skip_or_raise_witness :
    (linkDate undatedLink = none ∧
      scanLinks [undatedLink, janLink] [] false = scanLinks [janLink] [] false) ∧
    (strContains invalidDateLink2.text bulletinTitle = true ∧
      linkDate invalidDateLink2 = some (32, 13, 2022) ∧
      validDate 2022 13 32 = false ∧
      scanLinks [invalidDateLink2] [] false = ScanOut.err ∧
      get_bulletin_urls [[invalidDateLink2]] = Except.error ()) :=
  ⟨⟨rfl, spx_C3_amended_skip_or_raise.1 undatedLink [janLink] [] false rfl⟩,
   ⟨rfl, rfl, rfl,
    spx_C3_amended_skip_or_raise.2.1 invalidDateLink2 [] [] false 32 13 2022 rfl rfl rfl,
    spx_C3_amended_skip_or_raise.2.2 invalidDateLink2 [] 32 13 2022 rfl rfl rfl⟩⟩

/-- A found index lies below the list length. -/
theorem findIdxA_lt_length {α : Type} (p : α → Bool) :
    ∀ (l : List α) (i : Nat), findIdxA p l = some i → i < l.length := by
  intro l
  induction l with
  | nil => intro i h; cases h
  | cons x xs ih =>
    intro i h
    rw [findIdxA] at h
    by_cases hx : p x = true
    · rw [if_pos hx] at h
      cases h
      simp
    · rw [if_neg hx] at h
      cases hfx : findIdxA p xs with
      | none => rw [hfx] at h; cases h
      | some j =>
        rw [hfx] at h
        simp at h
        have := ih j hfx
        simp only [List.length_cons]
        omega

/-- A found column index lies below the column-list length. -/
theorem findCol_lt_length (cols : List String) (c : String) (i : Nat)
    (h : findCol cols c = some i) : i < cols.length :=
  findIdxA_lt_length (fun x => x == c) cols i h

/-- The label at a found column index is the label searched for. -/
theorem findCol_getD (cols : List String) (c : String) :
    ∀ i : Nat, findCol cols c = some i → cols.getD i "" = c := by
  unfold findCol
  induction cols with
  | nil => intro i h; cases h
  | cons x xs ih =>
    intro i h
    rw [findIdxA] at h
    by_cases hx : (x == c) = true
    · rw [if_pos hx] at h
      cases h
      simpa using eq_of_beq hx
    · rw [if_neg hx] at h
      cases hfx : findIdxA (fun y => y == c) xs with
      | none => rw [hfx] at h; cases h
      | some j =>
        rw [hfx] at h
        simp at h
        subst h
        simpa using ih j hfx

/-- Distinct labels have distinct found column indices. -/
theorem findCol_ne (cols : List String) (a b : String) (i j : Nat)
    (ha : findCol cols a = some i) (hb : findCol cols b = some j) (hab : a ≠ b) :
    i ≠ j := fun hij =>
  hab (by rw [← findCol_getD cols a i ha, ← findCol_getD cols b j hb, hij])

/-- First-index search distributes over list append. -/
theorem findIdxA_append {α : Type} (p : α → Bool) :
    ∀ (l1 l2 : List α), findIdxA p (l1 ++ l2) =
      match findIdxA p l1 with
      | some i => some i
      | none => (findIdxA p l2).map (fun k => l1.length + k) := by
  intro l1 l2
  induction l1 with
  | nil => cases h : findIdxA p l2 <;> simp [findIdxA, h]
  | cons x xs ih =>
    rw [List.cons_append]
    conv_lhs => rw [findIdxA]
    conv_rhs => rw [findIdxA]
    by_cases hx : p x = true
    · simp [hx]
    · simp only [hx, Bool.false_eq_true, if_false]
      rw [ih]
      cases h1 : findIdxA p xs with
      | some i => simp [h1]
      | none =>
        cases h2 : findIdxA p l2 with
        | none => simp [h1, h2]
        | some k => simp [h1, h2]; omega

/-- A column found on the left keeps its index under append. -/
theorem findCol_append_left (cols l2 : List String) (c : String) (i : Nat)
    (h : findCol cols c = some i) : findCol (cols ++ l2) c = some i := by
  unfold findCol at *
  rw [findIdxA_append, h]

/-- A column absent on the left is found on the right, with shifted index. -/
theorem findCol_append_right (cols l2 : List String) (c : String)
    (h : findCol cols c = none) :
    findCol (cols ++ l2) c = (findCol l2 c).map (fun k => cols.length + k) := by
  unfold findCol at *
  rw [findIdxA_append, h]

/-- A column absent on both sides of an append is absent from the append. -/
theorem findCol_append_none (cols l2 : List String) (c : String)
    (h1 : findCol cols c = none) (h2 : findCol l2 c = none) :
    findCol (cols ++ l2) c = none := by
  rw [findCol_append_right cols l2 c h1, h2]
  rfl

/-- A label not in the list is not found. -/
theorem findCol_eq_none (cols : List String) (c : String) (h : c ∉ cols) :
    findCol cols c = none := by
  unfold findCol
  apply findIdxA_eq_none
  intro x hx
  have hne : x ≠ c := fun e => h (e ▸ hx)
  simp [hne]

/-- A label in the list is found at some index. -/
theorem findCol_isSome (cols : List String) (c : String) (h : c ∈ cols) :
    ∃ i, findCol cols c = some i := by
  unfold findCol
  induction cols with
  | nil => cases h
  | cons x xs ih =>
    rw [findIdxA]
    by_cases hx : (x == c) = true
    · exact ⟨0, by rw [if_pos hx]⟩
    · have hc : c ∈ xs := by
        rcases List.mem_cons.mp h with h1 | h1
        · exact absurd (by simp [h1]) hx
        · exact h1
      obtain ⟨j, hj⟩ := ih hc
      exact ⟨j + 1, by rw [if_neg hx, hj]; rfl⟩

/-- First-index search depends only on the predicate's values on the list. -/
theorem findIdxA_congr {α : Type} (p q : α → Bool) :
    ∀ l : List α, (∀ x ∈ l, p x = q x) → findIdxA p l = findIdxA q l := by
  intro l
  induction l with
  | nil => intro _; rfl
  | cons x xs ih =>
    intro h
    rw [findIdxA, findIdxA, h x (List.mem_cons_self x xs),
        ih (fun y hy => h y (List.mem_cons_of_mem x hy))]

/-- A predicate false everywhere on a list makes any gives false. -/
theorem any_eq_false_of {α : Type} (p : α → Bool) :
    ∀ l : List α, (∀ x ∈ l, p x = false) → l.any p = false := by
  intro l
  induction l with
  | nil => intro _; rfl
  | cons x xs ih =>
    intro h
    rw [List.any_cons, h x (List.mem_cons_self x xs),
        ih (fun y hy => h y (List.mem_cons_of_mem x hy))]
    rfl

/-- Setting one position leaves reads at other positions unchanged. -/
theorem getD_set_ne {α : Type} (v d : α) :
    ∀ (l : List α) (i j : Nat), i ≠ j → (l.set i v).getD j d = l.getD j d := by
  intro l
  induction l with
  | nil => intro i j _; rfl
  | cons x xs ih =>
    intro i j hij
    cases i with
    | zero =>
      cases j with
      | zero => exact absurd rfl hij
      | succ j2 => rfl
    | succ i2 =>
      cases j with
      | zero => rfl
      | succ j2 => exact ih i2 j2 (fun e => hij (by rw [e]))

/-- Setting one position is read back at that position. -/
theorem getD_set_self {α : Type} (v d : α) :
    ∀ (l : List α) (i : Nat), i < l.length → (l.set i v).getD i d = v := by
  intro l
  induction l with
  | nil => intro i h; cases h
  | cons x xs ih =>
    intro i h
    cases i with
    | zero => rfl
    | succ i2 => exact ih i2 (by simpa using h)

/-- Reading below the left length ignores an appended suffix. -/
theorem getD_append_lt {α : Type} (d : α) :
    ∀ (l1 l2 : List α) (i : Nat), i < l1.length → (l1 ++ l2).getD i d = l1.getD i d := by
  intro l1
  induction l1 with
  | nil => intro l2 i h; cases h
  | cons x xs ih =>
    intro l2 i h
    cases i with
    | zero => rfl
    | succ i2 => exact ih l2 i2 (by simpa using h)

/-- Reading at the left length plus an offset reads the appended suffix. -/
theorem getD_append_add {α : Type} (d : α) :
    ∀ (l1 l2 : List α) (k : Nat), (l1 ++ l2).getD (l1.length + k) d = l2.getD k d := by
  intro l1
  induction l1 with
  | nil => intro l2 k; simp
  | cons x xs ih => intro l2 k; simpa [Nat.succ_add] using ih l2 k

/-- Zipping a list with its own image fuses into a single map. -/
theorem zip_self_map {α β γ : Type} (h : α → β) (g : α → β → γ) :
    ∀ l : List α, (l.zip (l.map h)).map (fun p => g p.1 p.2) = l.map (fun x => g x (h x)) := by
  intro l
  induction l with
  | nil => rfl
  | cons x xs ih => simp [ih]

/-- Zipping a list with a same-length replicate fuses into a single map. -/
theorem zip_replicate_map {α β γ : Type} (v : β) (g : α → β → γ) :
    ∀ l : List α,
      (l.zip (List.replicate l.length v)).map (fun p => g p.1 p.2) =
        l.map (fun x => g x v) := by
  intro l
  induction l with
  | nil => rfl
  | cons x xs ih => simp [List.replicate_succ, ih]

/-- Unfolding of mapCol at a present column. -/
theorem mapCol_spec (cols : List String) (rows : List (List Cell)) (c : String)
    (f : Cell → Cell) (i : Nat) (h : findCol cols c = some i) :
    DataFrame.mapCol ⟨cols, rows⟩ c f =
      ⟨cols, rows.map (fun r => r.set i (f (r.getD i Cell.na)))⟩ := by
  unfold DataFrame.mapCol
  simp only [h]

/-- Unfolding of an assignment of a transformed present column to a fresh
label: the new column is appended on the right, rowwise. -/
theorem assign_new_spec (cols : List String) (rows : List (List Cell)) (tgt src : String)
    (f : Cell → Cell) (i : Nat) (hn : findCol cols tgt = none)
    (hs : findCol cols src = some i) :
    DataFrame.assign ⟨cols, rows⟩ tgt ((DataFrame.getCol ⟨cols, rows⟩ src).map f) =
      ⟨cols ++ [tgt], rows.map (fun r => r ++ [f (r.getD i Cell.na)])⟩ := by
  unfold DataFrame.assign DataFrame.getCol
  simp only [hn, hs, List.map_map]
  congr 1
  exact zip_self_map (f ∘ fun r => r.getD i Cell.na) (fun r v => r ++ [v]) rows

/-- Unfolding of a constant-column assignment to a fresh label. -/
theorem assign_scalar_spec (cols : List String) (rows : List (List Cell)) (tgt : String)
    (v : Cell) (hn : findCol cols tgt = none) :
    DataFrame.assign ⟨cols, rows⟩ tgt
        (List.replicate (DataFrame.rows ⟨cols, rows⟩).length v) =
      ⟨cols ++ [tgt], rows.map (fun r => r ++ [v])⟩ := by
  unfold DataFrame.assign
  simp only [hn]
  congr 1
  exact zip_replicate_map v (fun r v2 => r ++ [v2]) rows

/-- Unfolding of filterByCol at a present column. -/
theorem filterByCol_spec (cols : List String) (rows : List (List Cell)) (c : String)
    (p : Cell → Bool) (i : Nat) (h : findCol cols c = some i) :
    DataFrame.filterByCol ⟨cols, rows⟩ c p =
      ⟨cols, rows.filter (fun r => p (r.getD i Cell.na))⟩ := by
  unfold DataFrame.filterByCol
  simp only [h]

/-- Unfolding of rename on a literal frame. -/
theorem rename_spec (cols : List String) (rows : List (List Cell)) (f : String → String) :
    DataFrame.rename ⟨cols, rows⟩ f = ⟨cols.map f, rows⟩ := rfl

/-- Unfolding of select on a literal frame. -/
theorem select_spec (cols : List String) (rows : List (List Cell)) (cs : List String) :
    DataFrame.select ⟨cols, rows⟩ cs =
      ⟨cs, rows.map (fun r => cs.map (fun c => rowGet cols r c))⟩ := rfl

/-- First-index search on a mapped list searches the composed predicate. -/
theorem findIdxA_map {α β : Type} (p : β → Bool) (f : α → β) :
    ∀ l : List α, findIdxA p (l.map f) = findIdxA (fun x => p (f x)) l := by
  intro l
  induction l with
  | nil => rfl
  | cons x xs ih => simp only [List.map_cons, findIdxA, ih]

/-- Filter then map respects pointwise-equal predicates and functions. -/
theorem filter_map_congr {α β : Type} (p q : α → Bool) (f g : α → β) :
    ∀ l : List α, (∀ x ∈ l, p x = q x) → (∀ x ∈ l, f x = g x) →
      (l.filter p).map f = (l.filter q).map g := by
  intro l
  induction l with
  | nil => intro _ _; rfl
  | cons x xs ih =>
    intro hp hf
    have hpx := hp x (List.mem_cons_self x xs)
    have hfx := hf x (List.mem_cons_self x xs)
    have ihx := ih (fun y hy => hp y (List.mem_cons_of_mem x hy))
      (fun y hy => hf y (List.mem_cons_of_mem x hy))
    rw [List.filter_cons, List.filter_cons, hpx]
    cases hq : q x with
    | false => simpa [hq] using ihx
    | true => simp only [hq, if_true, List.map_cons, hfx, ihx]
